import Mathlib

/-!
# Verification of `visualization.py`

Shallow embedding of the four chart-building functions of
`src/visualization.py` (pandas + plotly).  Tabular data is modelled as
lists of records; `float` amounts are modelled as rationals; the pandas
`groupby(...)[...].sum()` operation is modelled by `groupBySum`
(one output row per distinct key, keys sorted ascending, value = group
sum); `pd.merge(..., how='outer').fillna(0)` is modelled by `outerMerge`.

Each Python function possibly mutates the caller's DataFrame: the
embedding of every function returns, besides the chart data, the state of
the caller-supplied collections after the call.  `create_spending_pie_chart`
and `create_budget_comparison_chart` filter into a `.copy()` (lines 18 and
123 of the source), so the post state is the input; `create_spending_trend_chart`
assigns `transactions_df['date'] = pd.to_datetime(...)` (line 53) and
`transactions_df['month'] = transactions_df['date'].dt.to_period('M')`
(line 56) on the caller's frame itself, so its post state carries the added
month column.
-/

/-- A calendar date (what a normalized `pd.Timestamp` carries, at the
granularity the module uses). `pd.to_datetime` on already-calendar data is
the identity in this model. -/
structure Date where
  year : Nat
  mon : Nat
  day : Nat
deriving DecidableEq, Repr

/-- The month bucket `date.dt.to_period('M')` of a date: its (year, month)
pair.  The label "YYYY-MM" is in bijection with this pair. -/
def monthOf (d : Date) : Nat × Nat :=
  (d.year, d.mon)

/-- A row of the transactions table: columns `date`, `amount`, `category`,
and the optional `month` column (absent on caller input, added in place by
`create_spending_trend_chart`, line 56). -/
structure Transaction where
  date : Date
  amount : ℚ
  category : String
  monthCol : Option (Nat × Nat)
deriving DecidableEq, Repr

/-- A row of the budget table: columns `category`, `amount`. -/
structure BudgetRow where
  category : String
  amount : ℚ
deriving DecidableEq, Repr

/-- pandas `df.groupby(key)[val].sum().reset_index()`: one row per distinct
key, keys in ascending order of `le` (pandas sorts group keys), each row's
value the sum of the group's values. -/
def groupBySum {κ : Type} [DecidableEq κ] (le : κ → κ → Prop) [DecidableRel le]
    (l : List (κ × ℚ)) : List (κ × ℚ) :=
  (List.insertionSort le (l.map Prod.fst).dedup).map
    (fun k => (k, ((l.filter (fun p => decide (p.1 = k))).map Prod.snd).sum))

/-- Ascending order on `String` group keys (pandas sorts object keys
lexicographically). -/
def strLe (a b : String) : Prop := a ≤ b

instance : DecidableRel strLe := fun a b => inferInstanceAs (Decidable (a ≤ b))

/-- Chronological order on month buckets: lexicographic on (year, month);
this is the order in which pandas sorts `Period('M')` group keys, and the
lexicographic order of the "YYYY-MM" labels. -/
def monthLe (a b : Nat × Nat) : Prop :=
  a.1 < b.1 ∨ (a.1 = b.1 ∧ a.2 ≤ b.2)

instance : DecidableRel monthLe := fun a b =>
  inferInstanceAs (Decidable (a.1 < b.1 ∨ (a.1 = b.1 ∧ a.2 ≤ b.2)))

instance : IsTotal (Nat × Nat) monthLe :=
  ⟨by intro a b; unfold monthLe; omega⟩

instance : IsTrans (Nat × Nat) monthLe :=
  ⟨by intro a b c hab hbc; unfold monthLe at hab hbc ⊢; omega⟩

/-- Order on (month, category) group keys of
`expenses_df.groupby(['month', 'category'])`: month chronological first,
then category. -/
def mcLe (a b : (Nat × Nat) × String) : Prop :=
  (monthLe a.1 b.1 ∧ a.1 ≠ b.1) ∨ (a.1 = b.1 ∧ a.2 ≤ b.2)

instance : DecidableRel mcLe := fun a b =>
  inferInstanceAs (Decidable ((monthLe a.1 b.1 ∧ a.1 ≠ b.1) ∨ (a.1 = b.1 ∧ a.2 ≤ b.2)))

/-- Embedding of `create_spending_pie_chart` (lines 7-38).  Filters `amount < 0` into a
copy, takes absolute values, groups by `category` summing `amount`; the pie
has one slice per resulting row (value = summed magnitude, label =
category).  Returns (slices, post-call state of `transactions_df`): the
input is only read (boolean-mask selection plus `.copy()`, line 18), so the
post state is the input itself. -/
def create_spending_pie_chart (transactions : List Transaction) :
    List (String × ℚ) × List Transaction :=
  (groupBySum strLe
    ((transactions.filter (fun t => decide (t.amount < 0))).map
      (fun t => (t.category, |t.amount|))),
   transactions)

/-- The two data series of the trend chart figure. -/
structure TrendChart where
  income : List ((Nat × Nat) × ℚ)
  expenses : List (((Nat × Nat) × String) × ℚ)
deriving DecidableEq, Repr

/-- Embedding of `create_spending_trend_chart` (lines 41-108).  Adds a `month` column to
the caller's frame in place (lines 53 and 56: for each row the bucket
`monthOf date`), then splits income rows (`amount > 0`) and expense rows
(`amount < 0`, absolute value), aggregates income by month and expenses by
(month, category).  Returns (chart series, post-call state of
`transactions_df`): the post state is the caller's frame with the month
column filled in on every row. -/
def create_spending_trend_chart (transactions : List Transaction) :
    TrendChart × List Transaction :=
  (⟨groupBySum monthLe
      ((transactions.filter (fun t => decide (0 < t.amount))).map
        (fun t => (monthOf t.date, t.amount))),
    groupBySum mcLe
      ((transactions.filter (fun t => decide (t.amount < 0))).map
        (fun t => ((monthOf t.date, t.category), |t.amount|)))⟩,
   transactions.map (fun t => ⟨t.date, t.amount, t.category, some (monthOf t.date)⟩))

/-- A full outer join on the key (first component), missing sides filled
with 0, as `pd.merge(L, R, on='category', how='outer').fillna(0)` (lines
132-135): each left row is paired with every matching right row (with 0 if
none matches), then every unmatched right row follows with 0 on the left. -/
def outerMerge (L R : List (String × ℚ)) : List (String × ℚ × ℚ) :=
  (L.flatMap (fun l =>
    if (R.filter (fun r => decide (r.1 = l.1))).isEmpty
    then [(l.1, l.2, (0 : ℚ))]
    else (R.filter (fun r => decide (r.1 = l.1))).map (fun r => (l.1, l.2, r.2))))
  ++ ((R.filter (fun r => (L.filter (fun l => decide (l.1 = r.1))).isEmpty)).map
      (fun r => (r.1, (0 : ℚ), r.2)))

/-- A row of the comparison table of `create_budget_comparison_chart`:
columns `Category`, `Actual`, `Budgeted`, `Difference`, `Status`. -/
structure ComparisonRow where
  category : String
  actual : ℚ
  budgeted : ℚ
  difference : ℚ
  status : String
deriving DecidableEq, Repr

/-- Embedding of `create_budget_comparison_chart` (lines 111-162).  Actual spending per
category exactly as in the pie chart (lines 122-129), outer-merged with the
budget table on `category` with `fillna(0)` (lines 132-136), then
`Difference = Budgeted - Actual` and `Status = 'Under Budget' if
Difference >= 0 else 'Over Budget'` (lines 139-142).  Returns (table,
post-call state of the two input frames): both inputs are only read. -/
def create_budget_comparison_chart (transactions : List Transaction)
    (budget : List BudgetRow) :
    List ComparisonRow × (List Transaction × List BudgetRow) :=
  ((outerMerge
      (groupBySum strLe
        ((transactions.filter (fun t => decide (t.amount < 0))).map
          (fun t => (t.category, |t.amount|))))
      (budget.map (fun r => (r.category, r.amount)))).map (fun m =>
     ⟨m.1, m.2.1, m.2.2, m.2.2 - m.2.1,
      if 0 ≤ m.2.2 - m.2.1 then "Under Budget" else "Over Budget"⟩),
   (transactions, budget))

/-- The data carried by the gauge figure of `create_savings_goal_progress`. -/
structure GaugeChart where
  value : ℚ
  percentage : ℚ
  reference : ℚ
deriving DecidableEq, Repr

/-- Embedding of `create_savings_goal_progress` (lines 165-235).
`percentage = min(100, current_savings / savings_goal * 100) if
savings_goal > 0 else 0` (lines 176-177); the gauge plots `current_savings`
as its value with the goal as delta reference and axis maximum. -/
def create_savings_goal_progress (savings_goal current_savings : ℚ) : GaugeChart :=
  ⟨current_savings,
   if 0 < savings_goal then min 100 (current_savings / savings_goal * 100) else 0,
   savings_goal⟩

/-! ## Facts about `groupBySum` -/

theorem groupBySum_keys {κ : Type} [DecidableEq κ] (le : κ → κ → Prop) [DecidableRel le]
    (l : List (κ × ℚ)) :
    (groupBySum le l).map Prod.fst = List.insertionSort le (l.map Prod.fst).dedup := by
  simp only [groupBySum, List.map_map]
  exact List.map_id _

theorem mem_groupBySum_keys {κ : Type} [DecidableEq κ] (le : κ → κ → Prop) [DecidableRel le]
    (l : List (κ × ℚ)) (k : κ) :
    k ∈ (groupBySum le l).map Prod.fst ↔ k ∈ l.map Prod.fst := by
  rw [groupBySum_keys, List.mem_insertionSort, List.mem_dedup]

theorem groupBySum_keys_nodup {κ : Type} [DecidableEq κ] (le : κ → κ → Prop) [DecidableRel le]
    (l : List (κ × ℚ)) :
    ((groupBySum le l).map Prod.fst).Nodup := by
  rw [groupBySum_keys]
  exact ((List.perm_insertionSort le _).nodup_iff).mpr (List.nodup_dedup _)

theorem mem_groupBySum {κ : Type} [DecidableEq κ] {le : κ → κ → Prop} [DecidableRel le]
    {l : List (κ × ℚ)} {p : κ × ℚ} (hp : p ∈ groupBySum le l) :
    p.1 ∈ l.map Prod.fst ∧
      p.2 = ((l.filter (fun q => decide (q.1 = p.1))).map Prod.snd).sum := by
  obtain ⟨k, hk, rfl⟩ := List.mem_map.1 hp
  refine ⟨?_, rfl⟩
  exact List.mem_dedup.1 ((List.mem_insertionSort le).1 hk)

theorem sum_map_filter_add {α : Type} (p : α → Bool) (f : α → ℚ) (l : List α) :
    ((l.filter p).map f).sum + ((l.filter (fun a => !(p a))).map f).sum = (l.map f).sum := by
  induction l with
  | nil => simp
  | cons a l ih =>
    rw [List.filter_cons, List.filter_cons]
    cases h : p a
    · rw [if_neg (by simp [h]), if_pos (by simp [h])]
      simp only [List.map_cons, List.sum_cons]
      rw [← ih]; ring
    · rw [if_pos (by simp [h]), if_neg (by simp [h])]
      simp only [List.map_cons, List.sum_cons]
      rw [← ih]; ring

theorem sum_fiberwise {κ : Type} [DecidableEq κ] (l : List (κ × ℚ)) (ks : List κ)
    (hnd : ks.Nodup) (hcov : ∀ p ∈ l, p.1 ∈ ks) :
    (ks.map (fun k => ((l.filter (fun q => decide (q.1 = k))).map Prod.snd).sum)).sum
      = (l.map Prod.snd).sum := by
  induction ks generalizing l with
  | nil =>
    have hl : l = [] := by
      cases l with
      | nil => rfl
      | cons p l => exact absurd (hcov p (by simp)) (by simp)
    subst hl; simp
  | cons k ks ih =>
    have hk_not : k ∉ ks := (List.nodup_cons.1 hnd).1
    have hnd' : ks.Nodup := (List.nodup_cons.1 hnd).2
    simp only [List.map_cons, List.sum_cons]
    have htail :
        ks.map (fun k' => ((l.filter (fun q => decide (q.1 = k'))).map Prod.snd).sum)
          = ks.map (fun k' =>
              (((l.filter (fun q => !(decide (q.1 = k)))).filter
                (fun q => decide (q.1 = k'))).map Prod.snd).sum) := by
      refine List.map_congr_left ?_
      intro k' hk'
      have hne : k' ≠ k := fun h => hk_not (h ▸ hk')
      have heq : (l.filter (fun q => !(decide (q.1 = k)))).filter
            (fun q => decide (q.1 = k'))
          = l.filter (fun q => decide (q.1 = k')) := by
        rw [List.filter_filter]
        refine List.filter_congr ?_
        intro q _
        by_cases hq : q.1 = k'
        · have hqk : q.1 ≠ k := fun hh => hne (by rw [← hq, hh])
          simp [hq, hqk, hne]
        · simp [hq]
      rw [heq]
    rw [htail, ih (l.filter (fun q => !(decide (q.1 = k)))) hnd' ?_]
    · exact sum_map_filter_add _ _ l
    · intro p hp
      have hmem : p ∈ l := List.mem_of_mem_filter hp
      have hne : ¬(p.1 = k) := by
        have := List.of_mem_filter hp
        simpa using this
      have := hcov p hmem
      simpa [hne] using this

theorem groupBySum_sum {κ : Type} [DecidableEq κ] (le : κ → κ → Prop) [DecidableRel le]
    (l : List (κ × ℚ)) :
    ((groupBySum le l).map Prod.snd).sum = (l.map Prod.snd).sum := by
  unfold groupBySum
  rw [List.map_map]
  refine sum_fiberwise l _ ?_ ?_
  · exact ((List.perm_insertionSort le _).nodup_iff).mpr (List.nodup_dedup _)
  · intro p hp
    rw [List.mem_insertionSort, List.mem_dedup]
    exact List.mem_map_of_mem Prod.fst hp

theorem groupBySum_value_pos {κ : Type} [DecidableEq κ] {le : κ → κ → Prop} [DecidableRel le]
    {l : List (κ × ℚ)} (h : ∀ p ∈ l, 0 < p.2) :
    ∀ p ∈ groupBySum le l, 0 < p.2 := by
  intro p hp
  obtain ⟨hkey, hval⟩ := mem_groupBySum hp
  obtain ⟨q, hq, hq1⟩ := List.mem_map.1 hkey
  rw [hval]
  refine List.sum_pos _ ?_ ?_
  · intro x hx
    obtain ⟨r, hr, rfl⟩ := List.mem_map.1 hx
    exact h r (List.mem_of_mem_filter hr)
  · have hqf : q ∈ l.filter (fun r => decide (r.1 = p.1)) :=
      List.mem_filter.2 ⟨hq, by simp [hq1]⟩
    intro hnil
    rw [List.map_eq_nil_iff] at hnil
    rw [hnil] at hqf
    exact absurd hqf (List.not_mem_nil q)

theorem groupBySum_value_nonneg {κ : Type} [DecidableEq κ] {le : κ → κ → Prop}
    [DecidableRel le] {l : List (κ × ℚ)} (h : ∀ p ∈ l, 0 ≤ p.2) :
    ∀ p ∈ groupBySum le l, 0 ≤ p.2 := by
  intro p hp
  rw [(mem_groupBySum hp).2]
  refine List.sum_nonneg ?_
  intro x hx
  obtain ⟨r, hr, rfl⟩ := List.mem_map.1 hx
  exact h r (List.mem_of_mem_filter hr)

theorem groupBySum_keys_sorted {κ : Type} [DecidableEq κ] (le : κ → κ → Prop)
    [DecidableRel le] [IsTotal κ le] [IsTrans κ le] (l : List (κ × ℚ)) :
    ((groupBySum le l).map Prod.fst).Sorted le := by
  rw [groupBySum_keys]
  exact List.sorted_insertionSort le _

/-! ## Facts about `outerMerge` -/

theorem filter_key_single (R : List (String × ℚ)) (h : (R.map Prod.fst).Nodup) (k : String) :
    R.filter (fun r => decide (r.1 = k)) = [] ∨
      ∃ v, R.filter (fun r => decide (r.1 = k)) = [(k, v)] := by
  induction R with
  | nil => left; rfl
  | cons r R ih =>
    rw [List.map_cons, List.nodup_cons] at h
    rw [List.filter_cons]
    by_cases hr : r.1 = k
    · right
      refine ⟨r.2, ?_⟩
      rw [if_pos (by simp [hr])]
      have hnil : R.filter (fun x => decide (x.1 = k)) = [] := by
        rw [List.filter_eq_nil_iff]
        intro a ha
        simp only [decide_eq_true_eq]
        intro hak
        have hmem : a.1 ∈ R.map Prod.fst := List.mem_map_of_mem Prod.fst ha
        rw [hak, ← hr] at hmem
        exact h.1 hmem
      rw [hnil]
      rw [← hr]
    · rw [if_neg (by simp [hr])]
      exact ih h.2

theorem isEmpty_filter_key (L : List (String × ℚ)) (k : String) :
    ((L.filter (fun l => decide (l.1 = k))).isEmpty = true) ↔ k ∉ L.map Prod.fst := by
  rw [List.isEmpty_iff, List.filter_eq_nil_iff]
  constructor
  · intro h hk
    obtain ⟨l, hl, hlk⟩ := List.mem_map.1 hk
    exact h l hl (by simp [hlk])
  · intro h l hl
    simp only [decide_eq_true_eq]
    intro hlk
    exact h (List.mem_map.2 ⟨l, hl, hlk⟩)

theorem outerMerge_keys (L R : List (String × ℚ)) (h : (R.map Prod.fst).Nodup) :
    (outerMerge L R).map (fun x => x.1)
      = L.map Prod.fst ++
        (R.filter (fun r => (L.filter (fun l => decide (l.1 = r.1))).isEmpty)).map
          Prod.fst := by
  unfold outerMerge
  rw [List.map_append]
  congr 1
  · induction L with
    | nil => rfl
    | cons l L ihL =>
      rw [List.flatMap_cons, List.map_append, ihL, List.map_cons]
      have hfl :
          ((if (R.filter (fun r => decide (r.1 = l.1))).isEmpty
            then [(l.1, l.2, (0 : ℚ))]
            else (R.filter (fun r => decide (r.1 = l.1))).map
              (fun r => (l.1, l.2, r.2))).map (fun x => x.1)) = [l.1] := by
        rcases filter_key_single R h l.1 with hnil | ⟨v, hv⟩
        · simp [hnil]
        · simp [hv]
      rw [hfl]
      rfl
  · rw [List.map_map]
    rfl

theorem outerMerge_keys_nodup (L R : List (String × ℚ)) (hL : (L.map Prod.fst).Nodup)
    (hR : (R.map Prod.fst).Nodup) :
    ((outerMerge L R).map (fun x => x.1)).Nodup := by
  rw [outerMerge_keys L R hR, List.nodup_append]
  refine ⟨hL, ?_, ?_⟩
  · exact hR.sublist ((List.filter_sublist R).map Prod.fst)
  · intro k hkL hkR
    obtain ⟨r, hr, hrk⟩ := List.mem_map.1 hkR
    have hcond := List.of_mem_filter hr
    have : r.1 ∉ L.map Prod.fst := (isEmpty_filter_key L r.1).1 hcond
    rw [hrk] at this
    exact this hkL

theorem mem_outerMerge_keys (L R : List (String × ℚ)) (k : String) :
    k ∈ (outerMerge L R).map (fun x => x.1) ↔
      k ∈ L.map Prod.fst ∨ k ∈ R.map Prod.fst := by
  unfold outerMerge
  rw [List.map_append, List.mem_append]
  constructor
  · rintro (h | h)
    · left
      obtain ⟨row, hrow, hrk⟩ := List.mem_map.1 h
      rw [List.mem_flatMap] at hrow
      obtain ⟨l, hl, hrow⟩ := hrow
      by_cases hms : (R.filter (fun r => decide (r.1 = l.1))).isEmpty = true
      · rw [if_pos hms, List.mem_singleton] at hrow
        subst hrow
        rw [← hrk]
        exact List.mem_map_of_mem Prod.fst hl
      · rw [if_neg hms] at hrow
        obtain ⟨r, _, hrr⟩ := List.mem_map.1 hrow
        subst hrr
        rw [← hrk]
        exact List.mem_map_of_mem Prod.fst hl
    · right
      obtain ⟨row, hrow, hrk⟩ := List.mem_map.1 h
      obtain ⟨r, hr, hrr⟩ := List.mem_map.1 hrow
      subst hrr
      rw [← hrk]
      exact List.mem_map_of_mem Prod.fst (List.mem_of_mem_filter hr)
  · rintro (h | h)
    · left
      obtain ⟨l, hl, hlk⟩ := List.mem_map.1 h
      by_cases hms : (R.filter (fun r => decide (r.1 = l.1))).isEmpty = true
      · refine List.mem_map.2 ⟨(l.1, l.2, 0), ?_, hlk⟩
        rw [List.mem_flatMap]
        exact ⟨l, hl, by rw [if_pos hms]; exact List.mem_singleton.2 rfl⟩
      · have hne : R.filter (fun r => decide (r.1 = l.1)) ≠ [] := by
          intro hnil
          rw [List.isEmpty_iff] at hms
          exact hms hnil
        obtain ⟨r, hr⟩ := List.exists_mem_of_ne_nil _ hne
        refine List.mem_map.2 ⟨(l.1, l.2, r.2), ?_, hlk⟩
        rw [List.mem_flatMap]
        refine ⟨l, hl, ?_⟩
        rw [if_neg hms]
        exact List.mem_map.2 ⟨r, hr, rfl⟩
    · by_cases hkL : k ∈ L.map Prod.fst
      · obtain ⟨l, hl, hlk⟩ := List.mem_map.1 hkL
        left
        by_cases hms : (R.filter (fun r => decide (r.1 = l.1))).isEmpty = true
        · refine List.mem_map.2 ⟨(l.1, l.2, 0), ?_, hlk⟩
          rw [List.mem_flatMap]
          exact ⟨l, hl, by rw [if_pos hms]; exact List.mem_singleton.2 rfl⟩
        · have hne : R.filter (fun r => decide (r.1 = l.1)) ≠ [] := by
            intro hnil
            rw [List.isEmpty_iff] at hms
            exact hms hnil
          obtain ⟨r, hr⟩ := List.exists_mem_of_ne_nil _ hne
          refine List.mem_map.2 ⟨(l.1, l.2, r.2), ?_, hlk⟩
          rw [List.mem_flatMap]
          refine ⟨l, hl, ?_⟩
          rw [if_neg hms]
          exact List.mem_map.2 ⟨r, hr, rfl⟩
      · right
        obtain ⟨r, hr, hrk⟩ := List.mem_map.1 h
        refine List.mem_map.2 ⟨(r.1, 0, r.2), ?_, hrk⟩
        refine List.mem_map.2 ⟨r, List.mem_filter.2 ⟨hr, ?_⟩, rfl⟩
        refine (isEmpty_filter_key L r.1).2 ?_
        rw [hrk]
        exact hkL

theorem outerMerge_values (L R : List (String × ℚ)) :
    ∀ row ∈ outerMerge L R,
      (row.1 ∉ L.map Prod.fst → row.2.1 = 0) ∧
      (row.1 ∉ R.map Prod.fst → row.2.2 = 0) := by
  intro row hrow
  unfold outerMerge at hrow
  rw [List.mem_append] at hrow
  rcases hrow with h | h
  · rw [List.mem_flatMap] at h
    obtain ⟨l, hl, hrow⟩ := h
    by_cases hms : (R.filter (fun r => decide (r.1 = l.1))).isEmpty = true
    · rw [if_pos hms, List.mem_singleton] at hrow
      subst hrow
      refine ⟨fun hn => absurd (List.mem_map_of_mem Prod.fst hl) hn, fun _ => rfl⟩
    · rw [if_neg hms] at hrow
      obtain ⟨r, hr, hrr⟩ := List.mem_map.1 hrow
      subst hrr
      refine ⟨fun hn => absurd (List.mem_map_of_mem Prod.fst hl) hn, fun hn => ?_⟩
      exfalso
      have hrR : r ∈ R := List.mem_of_mem_filter hr
      have hr1 : r.1 = l.1 := by simpa using List.of_mem_filter hr
      exact hn (hr1 ▸ List.mem_map_of_mem Prod.fst hrR)
  · obtain ⟨r, hr, hrr⟩ := List.mem_map.1 h
    subst hrr
    refine ⟨fun _ => rfl, fun hn => ?_⟩
    exact absurd (List.mem_map_of_mem Prod.fst (List.mem_of_mem_filter hr)) hn

theorem outerMerge_actual_cases (L R : List (String × ℚ)) :
    ∀ row ∈ outerMerge L R, row.2.1 = 0 ∨ ∃ l ∈ L, row.2.1 = l.2 := by
  intro row hrow
  unfold outerMerge at hrow
  rw [List.mem_append] at hrow
  rcases hrow with h | h
  · rw [List.mem_flatMap] at h
    obtain ⟨l, hl, hrow⟩ := h
    by_cases hms : (R.filter (fun r => decide (r.1 = l.1))).isEmpty = true
    · rw [if_pos hms, List.mem_singleton] at hrow
      subst hrow
      exact Or.inr ⟨l, hl, rfl⟩
    · rw [if_neg hms] at hrow
      obtain ⟨r, _, hrr⟩ := List.mem_map.1 hrow
      subst hrr
      exact Or.inr ⟨l, hl, rfl⟩
  · obtain ⟨r, _, hrr⟩ := List.mem_map.1 h
    subst hrr
    exact Or.inl rfl

example :
    (create_spending_pie_chart
      [⟨⟨2024, 1, 5⟩, -50, "Food", none⟩, ⟨⟨2024, 1, 10⟩, -30, "Food", none⟩,
       ⟨⟨2024, 2, 1⟩, 2000, "Salary", none⟩]).1 = [("Food", 80)] := by
  norm_num [create_spending_pie_chart, groupBySum, List.insertionSort, List.orderedInsert,
    List.dedup, List.pwFilter, List.filter, List.sum]

example :
    (create_spending_trend_chart
      [⟨⟨2024, 1, 5⟩, -50, "Food", none⟩, ⟨⟨2024, 1, 10⟩, -30, "Food", none⟩,
       ⟨⟨2024, 2, 1⟩, 2000, "Salary", none⟩]).1 =
    ⟨[((2024, 2), 2000)], [(((2024, 1), "Food"), 80)]⟩ := by
  norm_num [create_spending_trend_chart, groupBySum, List.insertionSort, List.orderedInsert,
    List.dedup, List.pwFilter, List.filter, List.sum, monthOf]

example :
    (create_budget_comparison_chart [⟨⟨2024, 1, 5⟩, -80, "Food", none⟩]
      [⟨"Food", 100⟩]).1 = [⟨"Food", 80, 100, 20, "Under Budget"⟩] := by
  norm_num [create_budget_comparison_chart, outerMerge, groupBySum, List.insertionSort,
    List.orderedInsert, List.dedup, List.pwFilter, List.filter, List.sum]

example : (create_savings_goal_progress 1000 1500).percentage = 100 := by
  norm_num [create_savings_goal_progress]

example : (create_savings_goal_progress 1000 (-500)).percentage = -50 := by
  norm_num [create_savings_goal_progress]

/-! ## Filter interaction helpers -/

theorem filter_stronger_absorb {α : Type} (t : List α) (p q : α → Bool)
    (h : ∀ a, q a = true → p a = true) :
    (t.filter p).filter q = t.filter q := by
  rw [List.filter_filter]
  refine List.filter_congr ?_
  intro a _
  by_cases hq : q a = true
  · simp [hq, h a hq]
  · rw [Bool.not_eq_true] at hq
    simp [hq]

theorem filter_nonzero_neg (t : List Transaction) :
    (t.filter (fun tx => decide (tx.amount ≠ 0))).filter (fun tx => decide (tx.amount < 0))
      = t.filter (fun tx => decide (tx.amount < 0)) := by
  refine filter_stronger_absorb t _ _ ?_
  intro tx htx
  simp only [decide_eq_true_eq] at htx ⊢
  exact ne_of_lt htx

theorem filter_nonzero_pos (t : List Transaction) :
    (t.filter (fun tx => decide (tx.amount ≠ 0))).filter (fun tx => decide (0 < tx.amount))
      = t.filter (fun tx => decide (0 < tx.amount)) := by
  refine filter_stronger_absorb t _ _ ?_
  intro tx htx
  simp only [decide_eq_true_eq] at htx ⊢
  exact (ne_of_lt htx).symm

theorem filter_neg_idem (t : List Transaction) :
    (t.filter (fun tx => decide (tx.amount < 0))).filter (fun tx => decide (tx.amount < 0))
      = t.filter (fun tx => decide (tx.amount < 0)) :=
  filter_stronger_absorb t _ _ (fun _ h => h)

/-! ## Claim theorems -/

/-- C1: for every collection of transactions, the sum of all pie-chart slice
values equals the sum of the absolute values of the amounts of the
transactions with `amount < 0`, and transactions with `amount >= 0`
contribute to no slice (the chart built from the negative rows alone is the
same chart). -/
theorem pie_total_eq_negative_abs_sum (t : List Transaction) :
    (((create_spending_pie_chart t).1).map Prod.snd).sum
        = ((t.filter (fun tx => decide (tx.amount < 0))).map (fun tx => |tx.amount|)).sum
      ∧ (create_spending_pie_chart (t.filter (fun tx => decide (tx.amount < 0)))).1
        = (create_spending_pie_chart t).1 := by
  constructor
  · show ((groupBySum strLe _).map Prod.snd).sum = _
    rw [groupBySum_sum, List.map_map]
    rfl
  · show groupBySum strLe _ = groupBySum strLe _
    rw [filter_neg_idem]

/-- C9: every slice of the pie chart has a strictly positive value: each
slice is a nonempty sum of absolute values of negative amounts. -/
theorem pie_slice_values_pos (t : List Transaction) :
    ∀ s ∈ (create_spending_pie_chart t).1, 0 < s.2 := by
  intro s hs
  refine groupBySum_value_pos ?_ s hs
  intro p hp
  obtain ⟨tx, htx, rfl⟩ := List.mem_map.1 hp
  have hneg : tx.amount < 0 := by
    have := List.of_mem_filter htx
    simpa using this
  exact abs_pos.2 (ne_of_lt hneg)

/-- Witness for C9 at a concrete input. -/
theorem pie_slice_values_pos_witness :
    0 < (("Food", (80 : ℚ)) : String × ℚ).2 :=
  pie_slice_values_pos [⟨⟨2024, 1, 5⟩, -80, "Food", none⟩] ("Food", 80)
    (by norm_num [create_spending_pie_chart, groupBySum, List.insertionSort,
      List.orderedInsert, List.dedup, List.pwFilter, List.filter, List.sum])

/-- C10: every row of the budget-comparison table has a non-negative
`Actual` value: it is either a group sum of absolute values of negative
amounts or the zero fill of a budget-only category. -/
theorem comparison_actual_nonneg (t : List Transaction) (b : List BudgetRow) :
    ∀ r ∈ (create_budget_comparison_chart t b).1, 0 ≤ r.actual := by
  intro r hr
  obtain ⟨m, hm, rfl⟩ := List.mem_map.1 hr
  show 0 ≤ m.2.1
  rcases outerMerge_actual_cases _ _ m hm with h0 | ⟨l, hl, hv⟩
  · rw [h0]
  · rw [hv]
    refine groupBySum_value_nonneg ?_ l hl
    intro p hp
    obtain ⟨tx, _, rfl⟩ := List.mem_map.1 hp
    exact abs_nonneg tx.amount

/-- Witness for C10 at a concrete input. -/
theorem comparison_actual_nonneg_witness :
    0 ≤ (⟨"Food", 80, 100, 20, "Under Budget"⟩ : ComparisonRow).actual :=
  comparison_actual_nonneg [⟨⟨2024, 1, 5⟩, -80, "Food", none⟩] [⟨"Food", 100⟩]
    ⟨"Food", 80, 100, 20, "Under Budget"⟩
    (by norm_num [create_budget_comparison_chart, outerMerge, groupBySum,
      List.insertionSort, List.orderedInsert, List.dedup, List.pwFilter, List.filter,
      List.sum])

/-- C5: every row of the budget-comparison table satisfies
`Difference = Budgeted - Actual` and `Status = "Under Budget"` exactly when
the difference is non-negative, else `"Over Budget"`; on budget
`[{category: "Food", amount: 100}]` and a single `Food` expense of 80 the
table is the single row `Actual=80, Budgeted=100, Difference=20,
Status="Under Budget"`. -/
theorem comparison_difference_status (t : List Transaction) (b : List BudgetRow) :
    (∀ r ∈ (create_budget_comparison_chart t b).1,
        r.difference = r.budgeted - r.actual ∧
          r.status = if 0 ≤ r.difference then "Under Budget" else "Over Budget")
    ∧ (create_budget_comparison_chart [⟨⟨2024, 1, 5⟩, -80, "Food", none⟩]
        [⟨"Food", 100⟩]).1 = [⟨"Food", 80, 100, 20, "Under Budget"⟩] := by
  constructor
  · intro r hr
    obtain ⟨m, hm, rfl⟩ := List.mem_map.1 hr
    exact ⟨rfl, rfl⟩
  · norm_num [create_budget_comparison_chart, outerMerge, groupBySum,
      List.insertionSort, List.orderedInsert, List.dedup, List.pwFilter, List.filter,
      List.sum]

/-- Witness for C5 at a concrete input. -/
theorem comparison_difference_status_witness :
    (⟨"Food", 80, 100, 20, "Under Budget"⟩ : ComparisonRow).difference
        = (⟨"Food", 80, 100, 20, "Under Budget"⟩ : ComparisonRow).budgeted
          - (⟨"Food", 80, 100, 20, "Under Budget"⟩ : ComparisonRow).actual :=
  ((comparison_difference_status [⟨⟨2024, 1, 5⟩, -80, "Food", none⟩] [⟨"Food", 100⟩]).1
    ⟨"Food", 80, 100, 20, "Under Budget"⟩
    (by norm_num [create_budget_comparison_chart, outerMerge, groupBySum,
      List.insertionSort, List.orderedInsert, List.dedup, List.pwFilter, List.filter,
      List.sum])).1

/-- C6: whenever `savings_goal <= 0`, the guard `savings_goal > 0` fails, so
the division branch is not taken and the computed percentage is 0 (the
function is total: no error is raised). -/
theorem savings_goal_nonpositive_percentage_zero (savings_goal current_savings : ℚ)
    (h : savings_goal ≤ 0) :
    (create_savings_goal_progress savings_goal current_savings).percentage = 0 := by
  show (if 0 < savings_goal then min 100 (current_savings / savings_goal * 100) else 0) = 0
  rw [if_neg (not_lt.2 h)]

/-- Witness for C6 at a concrete input. -/
theorem savings_goal_nonpositive_percentage_zero_witness :
    (create_savings_goal_progress 0 500).percentage = 0 :=
  savings_goal_nonpositive_percentage_zero 0 500 (by norm_num)

/-- C3 counterexample: the claim that the percentage always lies in
`[0, 100]` fails at `savings_goal = 1000, current_savings = -500`, where
the computed percentage is -50. -/
theorem savings_percentage_in_range_cex :
    ¬ (0 ≤ (create_savings_goal_progress 1000 (-500)).percentage) := by
  have h : (create_savings_goal_progress 1000 (-500)).percentage = -50 := by
    show (if (0:ℚ) < 1000 then min 100 ((-500) / 1000 * 100) else 0) = -50
    rw [if_pos (by norm_num)]
    norm_num
  rw [h]
  norm_num

/-- C3 amended: the percentage computed by `create_savings_goal_progress`
never exceeds 100; whenever `current_savings` is non-negative it lies in
`[0, 100]`; and with `savings_goal = 1000, current_savings = 1500` it
clamps to exactly 100. -/
theorem savings_percentage_amended (savings_goal current_savings : ℚ) :
    (create_savings_goal_progress savings_goal current_savings).percentage ≤ 100
    ∧ (0 ≤ current_savings →
        0 ≤ (create_savings_goal_progress savings_goal current_savings).percentage)
    ∧ (create_savings_goal_progress 1000 1500).percentage = 100 := by
  refine ⟨?_, ?_, ?_⟩
  · show (if 0 < savings_goal then min 100 (current_savings / savings_goal * 100) else 0) ≤ 100
    by_cases hg : 0 < savings_goal
    · rw [if_pos hg]
      exact min_le_left _ _
    · rw [if_neg hg]
      norm_num
  · intro hc
    show 0 ≤ (if 0 < savings_goal then min 100 (current_savings / savings_goal * 100) else 0)
    by_cases hg : 0 < savings_goal
    · rw [if_pos hg]
      refine le_min (by norm_num) ?_
      exact mul_nonneg (div_nonneg hc (le_of_lt hg)) (by norm_num)
    · rw [if_neg hg]
  · show (if (0:ℚ) < 1000 then min 100 (1500 / 1000 * 100) else 0) = 100
    rw [if_pos (by norm_num)]
    have h : (1500 : ℚ) / 1000 * 100 = 150 := by norm_num
    rw [h]
    exact min_eq_left (by norm_num)

/-- Witness for the amended C3 at a concrete input. -/
theorem savings_percentage_amended_witness :
    0 ≤ (create_savings_goal_progress 1 2).percentage :=
  (savings_percentage_amended 1 2).2.1 (by norm_num)

/-- C8: a transaction with `amount = 0` contributes to no output: deleting
all zero-amount rows changes neither the pie chart, nor the income and
expense series of the trend chart, nor the budget-comparison table (its
`Actual` totals included), since every aggregation filters on `amount < 0`
or `amount > 0`. -/
theorem zero_amount_contributes_nothing (t : List Transaction) (b : List BudgetRow) :
    (create_spending_pie_chart (t.filter (fun tx => decide (tx.amount ≠ 0)))).1
        = (create_spending_pie_chart t).1
    ∧ (create_spending_trend_chart (t.filter (fun tx => decide (tx.amount ≠ 0)))).1
        = (create_spending_trend_chart t).1
    ∧ (create_budget_comparison_chart (t.filter (fun tx => decide (tx.amount ≠ 0))) b).1
        = (create_budget_comparison_chart t b).1 := by
  refine ⟨?_, ?_, ?_⟩
  · show groupBySum strLe _ = groupBySum strLe _
    rw [filter_nonzero_neg]
  · simp only [create_spending_trend_chart]
    rw [filter_nonzero_pos, filter_nonzero_neg]
  · simp only [create_budget_comparison_chart]
    rw [filter_nonzero_neg]

/-- C2: with budget categories unique, the comparison table has exactly one
row per category in the union of actual-expense categories and budget
categories (its category column is duplicate-free and ranges exactly over
the union), and a category present on only one side carries 0 on the other
side. -/
theorem budget_outer_join_union (t : List Transaction) (b : List BudgetRow)
    (h : (b.map BudgetRow.category).Nodup) :
    (((create_budget_comparison_chart t b).1).map ComparisonRow.category).Nodup
    ∧ (∀ k, k ∈ ((create_budget_comparison_chart t b).1).map ComparisonRow.category ↔
        (k ∈ (t.filter (fun tx => decide (tx.amount < 0))).map Transaction.category
          ∨ k ∈ b.map BudgetRow.category))
    ∧ (∀ r ∈ (create_budget_comparison_chart t b).1,
        r.category ∉ b.map BudgetRow.category → r.budgeted = 0)
    ∧ (∀ r ∈ (create_budget_comparison_chart t b).1,
        r.category ∉ (t.filter (fun tx => decide (tx.amount < 0))).map Transaction.category
          → r.actual = 0) := by
  have hRkeys : ((b.map (fun r => (r.category, r.amount))).map Prod.fst)
      = b.map BudgetRow.category := by
    rw [List.map_map]
    rfl
  have hRnodup : ((b.map (fun r => (r.category, r.amount))).map Prod.fst).Nodup := by
    rw [hRkeys]
    exact h
  have hEkeys : (((t.filter (fun tx => decide (tx.amount < 0))).map
        (fun tx => (tx.category, |tx.amount|))).map Prod.fst)
      = (t.filter (fun tx => decide (tx.amount < 0))).map Transaction.category := by
    rw [List.map_map]
    rfl
  have hmapcat : ((create_budget_comparison_chart t b).1).map ComparisonRow.category
      = (outerMerge
          (groupBySum strLe ((t.filter (fun tx => decide (tx.amount < 0))).map
            (fun tx => (tx.category, |tx.amount|))))
          (b.map (fun r => (r.category, r.amount)))).map (fun x => x.1) := by
    simp only [create_budget_comparison_chart]
    rw [List.map_map]
    rfl
  refine ⟨?_, ?_, ?_, ?_⟩
  · rw [hmapcat]
    exact outerMerge_keys_nodup _ _ (groupBySum_keys_nodup strLe _) hRnodup
  · intro k
    rw [hmapcat, mem_outerMerge_keys, mem_groupBySum_keys, hEkeys, hRkeys]
  · intro r hr hnot
    simp only [create_budget_comparison_chart] at hr
    obtain ⟨m, hm, rfl⟩ := List.mem_map.1 hr
    show m.2.2 = 0
    refine (outerMerge_values _ _ m hm).2 ?_
    rw [hRkeys]
    exact hnot
  · intro r hr hnot
    simp only [create_budget_comparison_chart] at hr
    obtain ⟨m, hm, rfl⟩ := List.mem_map.1 hr
    show m.2.1 = 0
    refine (outerMerge_values _ _ m hm).1 ?_
    rw [mem_groupBySum_keys, hEkeys]
    exact hnot

/-- Witness for C2 at a concrete input (an expense-only category and a
budget-only category). -/
theorem budget_outer_join_union_witness :
    (((create_budget_comparison_chart [⟨⟨2024, 1, 5⟩, -80, "Food", none⟩]
        [⟨"Rent", 100⟩]).1).map ComparisonRow.category).Nodup :=
  (budget_outer_join_union [⟨⟨2024, 1, 5⟩, -80, "Food", none⟩] [⟨"Rent", 100⟩]
    (by simp)).1

/-- C7: the income series of the trend chart has exactly one point per
month holding at least one `amount > 0` transaction, each point's value is
the sum of the positive amounts of that month, and the month keys are in
ascending chronological order. -/
theorem trend_income_series_correct (t : List Transaction) :
    ((((create_spending_trend_chart t).1).income).map Prod.fst).Nodup
    ∧ (∀ m, m ∈ (((create_spending_trend_chart t).1).income).map Prod.fst ↔
        ∃ tx ∈ t, 0 < tx.amount ∧ monthOf tx.date = m)
    ∧ (∀ p ∈ ((create_spending_trend_chart t).1).income,
        p.2 = ((t.filter (fun tx => decide (0 < tx.amount)
            && decide (monthOf tx.date = p.1))).map (fun tx => tx.amount)).sum)
    ∧ ((((create_spending_trend_chart t).1).income).map Prod.fst).Sorted monthLe := by
  have hinc : ((create_spending_trend_chart t).1).income
      = groupBySum monthLe ((t.filter (fun tx => decide (0 < tx.amount))).map
          (fun tx => (monthOf tx.date, tx.amount))) := rfl
  refine ⟨?_, ?_, ?_, ?_⟩
  · rw [hinc]
    exact groupBySum_keys_nodup monthLe _
  · intro m
    rw [hinc, mem_groupBySum_keys]
    simp only [List.map_map, List.mem_map, Function.comp, List.mem_filter,
      decide_eq_true_eq]
    constructor
    · rintro ⟨tx, ⟨htx, hpos⟩, hm⟩
      exact ⟨tx, htx, hpos, hm⟩
    · rintro ⟨tx, htx, hpos, hm⟩
      exact ⟨tx, ⟨htx, hpos⟩, hm⟩
  · intro p hp
    rw [hinc] at hp
    rw [(mem_groupBySum hp).2]
    have hfil : ((t.filter (fun tx => decide (0 < tx.amount))).map
          (fun tx => (monthOf tx.date, tx.amount))).filter (fun q => decide (q.1 = p.1))
        = ((t.filter (fun tx => decide (0 < tx.amount)
            && decide (monthOf tx.date = p.1))).map
              (fun tx => (monthOf tx.date, tx.amount))) := by
      rw [List.filter_map]
      congr 1
      rw [List.filter_filter]
      refine List.filter_congr ?_
      intro tx _
      simp [Function.comp, Bool.and_comm]
    rw [hfil, List.map_map]
    rfl
  · rw [hinc]
    exact groupBySum_keys_sorted monthLe _

/-- Witness for C7 at a concrete input. -/
theorem trend_income_series_correct_witness :
    (2024, 2) ∈ ((((create_spending_trend_chart
        [⟨⟨2024, 2, 1⟩, 2000, "Salary", none⟩]).1).income).map Prod.fst) :=
  ((trend_income_series_correct [⟨⟨2024, 2, 1⟩, 2000, "Salary", none⟩]).2.1
      (2024, 2)).mpr
    ⟨⟨⟨2024, 2, 1⟩, 2000, "Salary", none⟩, by simp, by norm_num, rfl⟩

/-- C4 counterexample: `create_spending_trend_chart` does not leave its
input unchanged: it adds the month column in place (source lines 53 and
56), so after a call on a one-row frame the caller's frame differs from
what was passed in. -/
theorem trend_chart_mutates_input_cex :
    (create_spending_trend_chart [⟨⟨2024, 1, 5⟩, -50, "Food", none⟩]).2
      ≠ [⟨⟨2024, 1, 5⟩, -50, "Food", none⟩] := by
  simp [create_spending_trend_chart, monthOf]

/-- C4 amended: the pie-chart, budget-comparison, and savings functions
leave their inputs unchanged, while `create_spending_trend_chart` mutates
the caller's transactions in place: each row keeps its date, amount and
category, but its month column is set to the row's (year, month) bucket. -/
theorem input_mutation_amended :
    (∀ t, (create_spending_pie_chart t).2 = t)
    ∧ (∀ t b, (create_budget_comparison_chart t b).2 = (t, b))
    ∧ (∀ t, ((create_spending_trend_chart t).2).map
          (fun tx => Transaction.mk tx.date tx.amount tx.category none)
        = t.map (fun tx => Transaction.mk tx.date tx.amount tx.category none))
    ∧ (∀ t, ∀ tx ∈ (create_spending_trend_chart t).2,
        tx.monthCol = some (monthOf tx.date)) := by
  refine ⟨fun t => rfl, fun t b => rfl, ?_, ?_⟩
  · intro t
    show (t.map _).map _ = _
    rw [List.map_map]
    rfl
  · intro t tx htx
    have hmem : tx ∈ t.map (fun ty =>
        (⟨ty.date, ty.amount, ty.category, some (monthOf ty.date)⟩ : Transaction)) := htx
    obtain ⟨ty, _, rfl⟩ := List.mem_map.1 hmem
    rfl

/-- Witness for the amended C4 at a concrete input. -/
theorem input_mutation_amended_witness :
    (⟨⟨2024, 1, 5⟩, -50, "Food", some (2024, 1)⟩ : Transaction).monthCol
      = some (monthOf (⟨⟨2024, 1, 5⟩, -50, "Food", some (2024, 1)⟩ : Transaction).date) :=
  input_mutation_amended.2.2.2 [⟨⟨2024, 1, 5⟩, -50, "Food", none⟩]
    ⟨⟨2024, 1, 5⟩, -50, "Food", some (2024, 1)⟩
    (by simp [create_spending_trend_chart, monthOf])
